import Mathlib

/-!
Verification of the LabelDecoder response-extraction logic
(`utils/gemini_analyzer.py`) and its upload/record lifecycle
(`database/db_manager.py`, `app.py`).  Text is modelled as `List Char`
with Python string semantics (split, strip, lower, substring, slicing)
made explicit, and the four regular-expression searches of
`_extract_health_rating` are unfolded into their leftmost-match,
greedy-capture behaviour on the character list.
-/

namespace LabelDecoder

/-- Python whitespace characters as used by `str.strip` and the regex
class for a whitespace character (ASCII range). -/
def isPySpace (c : Char) : Bool :=
  c = ' ' || c = '\t' || c = '\n' || c = '\x0d' || c = '\x0b' || c = '\x0c'

/-- Lowercase every character (ASCII case folding), modelling
`str.lower()` on the inputs the extractor handles. -/
def lowerL (l : List Char) : List Char := l.map Char.toLower

/-- Python `text.split(sep)` for a one-character separator: no empty
pieces are dropped, and the empty string splits to one empty piece. -/
def splitOnChar (sep : Char) : List Char → List (List Char)
  | [] => [[]]
  | c :: cs =>
    if c = sep then [] :: splitOnChar sep cs
    else
      match splitOnChar sep cs with
      | [] => [[c]]
      | l :: ls => (c :: l) :: ls

/-- Python `str.strip()`: remove leading and trailing whitespace. -/
def pyStrip (l : List Char) : List Char :=
  ((l.dropWhile isPySpace).reverse.dropWhile isPySpace).reverse

/-- Python substring test `needle in hay`. -/
def containsSub (needle : List Char) : List Char → Bool
  | [] => needle.isEmpty
  | c :: cs => needle.isPrefixOf (c :: cs) || containsSub needle cs

/-- The text after the first occurrence of `sep`, i.e. Python
`line.split(sep, 1)[1]` when `sep` occurs in the line. -/
def afterChar (sep : Char) : List Char → Option (List Char)
  | [] => none
  | c :: cs => if c = sep then some cs else afterChar sep cs

/-- Python `int` on a (nonempty) string of decimal digits. -/
def natOfDigits (l : List Char) : Nat :=
  l.foldl (fun a c => a * 10 + (c.toNat - 48)) 0

/-- `' '.join ls`. -/
def joinSpace (ls : List (List Char)) : List Char :=
  List.intercalate [' '] ls

end LabelDecoder

namespace LabelDecoder

/-! ### `GeminiAnalyzer._extract_summary` -/

/-- A line is kept by `_extract_summary` exactly when
`line.strip()` is truthy and `not line.startswith('#')`. -/
def summaryKeeps (line : List Char) : Bool :=
  !(pyStrip line).isEmpty && !(line.headI = '#' && !line.isEmpty)

/-- `GeminiAnalyzer._extract_summary`: look only at `lines[:3]`, keep
the stripped qualifying lines, join with spaces, truncate to 200
characters and append `"..."`; fall back to `"Analysis completed"`
when no line was kept. -/
def extract_summary (text : List Char) : List Char :=
  let lines := splitOnChar '\n' text
  let summaryLines := ((lines.take 3).filter summaryKeeps).map pyStrip
  if summaryLines.isEmpty then ("Analysis completed").toList
  else (joinSpace summaryLines).take 200 ++ ("...").toList

/-! ### `GeminiAnalyzer._extract_health_rating`

The four patterns `Health Rating[:\s]+(\d+)`, `Rating[:\s]+(\d+)`,
`(\d+)/10`, `(\d+)\s*out\s*of\s*10`, each searched case-insensitively
with `re.search` (leftmost match).  Because no separator or literal
character of these patterns is a digit, the greedy quantifiers never
backtrack: a match at a position is exactly a maximal digit/separator
run decomposition, which the definitions below compute directly. -/

/-- Characters matched by the class `[:\s]`. -/
def isSepChar (c : Char) : Bool := c = ':' || isPySpace c

/-- Attempt `label[:\s]+(\d+)` at the start of `s` (case-insensitive
literal `label`); return the captured integer on success. -/
def matchLabelAt (label : List Char) (s : List Char) : Option Nat :=
  if label.isPrefixOf (lowerL s) then
    let rest := s.drop label.length
    match rest with
    | [] => none
    | c :: _ =>
      if isSepChar c then
        let digits := (rest.dropWhile isSepChar).takeWhile Char.isDigit
        if digits.isEmpty then none else some (natOfDigits digits)
      else none
  else none

/-- `re.search` for `label[:\s]+(\d+)`: try every position from the
left, returning the first captured integer. -/
def searchLabel (label : List Char) : List Char → Option Nat
  | [] => none
  | c :: cs =>
    match matchLabelAt label (c :: cs) with
    | some n => some n
    | none => searchLabel label cs

/-- Attempt `(\d+)/10` at the start of `s`. -/
def matchSlash10At (s : List Char) : Option Nat :=
  let digits := s.takeWhile Char.isDigit
  if digits.isEmpty then none
  else if (['/', '1', '0']).isPrefixOf (s.drop digits.length) then
    some (natOfDigits digits)
  else none

/-- `re.search` for `(\d+)/10`. -/
def searchSlash10 : List Char → Option Nat
  | [] => none
  | c :: cs =>
    match matchSlash10At (c :: cs) with
    | some n => some n
    | none => searchSlash10 cs

/-- Attempt `(\d+)\s*out\s*of\s*10` (case-insensitive) at the start
of `s`. -/
def matchOutOf10At (s : List Char) : Option Nat :=
  let digits := s.takeWhile Char.isDigit
  if digits.isEmpty then none
  else
    let r1 := (s.drop digits.length).dropWhile isPySpace
    if (['o', 'u', 't']).isPrefixOf (lowerL r1) then
      let r2 := (r1.drop 3).dropWhile isPySpace
      if (['o', 'f']).isPrefixOf (lowerL r2) then
        let r3 := (r2.drop 2).dropWhile isPySpace
        if (['1', '0']).isPrefixOf r3 then some (natOfDigits digits)
        else none
      else none
    else none

/-- `re.search` for `(\d+)\s*out\s*of\s*10`. -/
def searchOutOf10 : List Char → Option Nat
  | [] => none
  | c :: cs =>
    match matchOutOf10At (c :: cs) with
    | some n => some n
    | none => searchOutOf10 cs

/-- The four pattern searches of `_extract_health_rating`, in source
order. -/
def ratingPatterns : List (List Char → Option Nat) :=
  [searchLabel (("health rating").toList),
   searchLabel (("rating").toList),
   searchSlash10,
   searchOutOf10]

/-- The `for pattern in patterns` loop: take the first pattern whose
match captures an integer in `[1, 10]`; a match whose integer is out
of range is discarded and the next pattern is tried. -/
def firstValidRating : List (List Char → Option Nat) → List Char → Option Nat
  | [], _ => none
  | p :: ps, text =>
    match p text with
    | some n => if 1 ≤ n ∧ n ≤ 10 then some n else firstValidRating ps text
    | none => firstValidRating ps text

/-- `GeminiAnalyzer._extract_health_rating`. -/
def extract_health_rating (text : List Char) : Option Nat :=
  firstValidRating ratingPatterns text

/-! ### `GeminiAnalyzer._extract_ingredients` -/

/-- The line test of `_extract_ingredients`:
`'ingredient' in line.lower() and ':' in line`. -/
def ingredientLine (line : List Char) : Bool :=
  containsSub (("ingredient").toList) (lowerL line) && line.contains ':'

/-- `GeminiAnalyzer._extract_ingredients`: from the first qualifying
line, take the text after the first colon, strip it, split on commas,
strip each piece, and take the first 5 pieces (the loop breaks after
the first qualifying line). -/
def extract_ingredients (text : List Char) : List (List Char) :=
  let lines := splitOnChar '\n' text
  match lines.find? ingredientLine with
  | none => []
  | some line =>
    match afterChar ':' line with
    | none => []
    | some rest =>
      (((splitOnChar ',' (pyStrip rest)).map pyStrip).take 5)

/-! ### `GeminiAnalyzer._extract_warnings` -/

/-- The warning keywords of `_extract_warnings`. -/
def warningKeywords : List (List Char) :=
  [("warning").toList, ("allergen").toList, ("caution").toList,
   ("avoid").toList, ("concern").toList]

/-- A line qualifies when its lowercased form contains one of the
keywords. -/
def warningLine (line : List Char) : Bool :=
  warningKeywords.any (fun k => containsSub k (lowerL line))

/-- The item a qualifying line contributes: the stripped text after
the first colon when the line has a colon (dropped when empty),
otherwise the whole stripped line. -/
def warningItem (line : List Char) : Option (List Char) :=
  if warningLine line then
    match afterChar ':' line with
    | some rest =>
      let w := pyStrip rest
      if w.isEmpty then none else some w
    | none => some (pyStrip line)
  else none

/-- `GeminiAnalyzer._extract_warnings`: collect the items of all
qualifying lines in scan order, then return the first 3. -/
def extract_warnings (text : List Char) : List (List Char) :=
  ((splitOnChar '\n' text).filterMap warningItem).take 3

/-! ### `GeminiAnalyzer._process_response` -/

/-- The structured record built by `_process_response`
(the spec's `ExtractedSummary`). -/
structure ExtractedSummary where
  summary : List Char
  health_rating : Option Nat
  key_ingredients : List (List Char)
  warnings : List (List Char)
  deriving DecidableEq, Repr

/-- `GeminiAnalyzer._process_response`. -/
def process_response (text : List Char) : ExtractedSummary :=
  { summary := extract_summary text
    health_rating := extract_health_rating text
    key_ingredients := extract_ingredients text
    warnings := extract_warnings text }

/-! ### Spec-worded variants, for comparison with the code

These definitions follow the words of the specification claims (not
the source); they exist only to be compared against the functions
above. -/

/-- Summary extraction as claimed: collect up to the first 3
qualifying lines anywhere in the text (not merely among the first 3
lines), then join, truncate, append the ellipsis marker. -/
def claimed_extract_summary (text : List Char) : List Char :=
  let collected :=
    (((splitOnChar '\n' text).filter summaryKeeps).take 3).map pyStrip
  if collected.isEmpty then ("Analysis completed").toList
  else (joinSpace collected).take 200 ++ ("...").toList

/-- Ingredient extraction as claimed: keep at most the first 5 pieces
that are non-empty after trimming, so trimmed-empty pieces are dropped
and do not count toward the 5. -/
def claimed_extract_ingredients (text : List Char) : List (List Char) :=
  match (splitOnChar '\n' text).find? ingredientLine with
  | none => []
  | some line =>
    match afterChar ':' line with
    | none => []
    | some rest =>
      ((((splitOnChar ',' (pyStrip rest)).map pyStrip).filter
          (fun p => !p.isEmpty)).take 5)

/-- The qualifying lines of the amended summary rule, collected by a
direct scan (used to restate `extract_summary` structurally). -/
def collectSummaryLines : List (List Char) → List (List Char)
  | [] => []
  | l :: ls =>
    if summaryKeeps l then pyStrip l :: collectSummaryLines ls
    else collectSummaryLines ls

/-- The warning items of all lines, collected by a direct scan (used
to restate `extract_warnings` structurally). -/
def collectWarnings : List (List Char) → List (List Char)
  | [] => []
  | l :: ls =>
    match warningItem l with
    | some w => w :: collectWarnings ls
    | none => collectWarnings ls

end LabelDecoder

namespace LabelDecoder

/-! ### Record store (`database/db_manager.py`)

A row of `uploaded_images` (the `upload_timestamp` column, filled by
the database clock, is not modelled; no claim mentions it). -/

structure ImageRow where
  id : Nat
  filename : List Char
  original_filename : List Char
  file_path : List Char
  file_size : Nat
  analysis_status : List Char
  deriving DecidableEq, Repr

/-- A row of `analysis_results` (again without its timestamp). -/
structure AnalysisRow where
  id : Nat
  image_id : Nat
  analysis_text : List Char
  analysis_json : List Char
  model_used : List Char
  deriving DecidableEq, Repr

/-- The database state: the two tables plus the AUTOINCREMENT
counters for their integer primary keys. -/
structure DBState where
  images : List ImageRow
  analyses : List AnalysisRow
  nextImageId : Nat
  nextAnalysisId : Nat
  deriving DecidableEq, Repr

/-- Freshly created tables (SQLite AUTOINCREMENT starts at 1). -/
def initialDB : DBState := ⟨[], [], 1, 1⟩

/-- `DatabaseManager.save_uploaded_image`: insert a row; the
`analysis_status` column takes its schema default `'pending'`.
Returns the generated id together with the new state. -/
def save_uploaded_image (st : DBState) (filename original_filename file_path : List Char)
    (file_size : Nat) : Nat × DBState :=
  let i := st.nextImageId
  (i, { st with
        images := st.images ++
          [⟨i, filename, original_filename, file_path, file_size, ("pending").toList⟩]
        nextImageId := i + 1 })

/-- The row transformation of the `UPDATE uploaded_images SET
analysis_status = 'completed' WHERE id = ?` statement. -/
def markCompleted (image_id : Nat) (r : ImageRow) : ImageRow :=
  if r.id = image_id then { r with analysis_status := ("completed").toList } else r

/-- `DatabaseManager.save_analysis_result`: insert an analysis row,
then update the image row's status to `'completed'`. -/
def save_analysis_result (st : DBState) (image_id : Nat)
    (analysis_text analysis_json model_used : List Char) : Nat × DBState :=
  let i := st.nextAnalysisId
  (i, { st with
        analyses := st.analyses ++ [⟨i, image_id, analysis_text, analysis_json, model_used⟩]
        images := st.images.map (markCompleted image_id)
        nextAnalysisId := i + 1 })

/-- `DatabaseManager.get_upload_statistics`: total uploads, rows with
status `'completed'`, rows with status `'pending'`. -/
def get_upload_statistics (st : DBState) : Nat × Nat × Nat :=
  (st.images.length,
   st.images.countP (fun r => r.analysis_status = ("completed").toList),
   st.images.countP (fun r => r.analysis_status = ("pending").toList))

/-- The status of the image row with the given id, as
`get_image_by_id` would report it (first matching row). -/
def imageStatus (st : DBState) (image_id : Nat) : Option (List Char) :=
  (st.images.find? (fun r => r.id = image_id)).map (fun r => r.analysis_status)

/-! ### Orchestration (`app.py analyze_image` together with
`GeminiAnalyzer.analyze_label_image`) -/

/-- The possible outcomes of the environment for one model call, as
distinguished by `analyze_label_image`: API not configured, image
file missing, an exception raised during the call, or a response
carrying its text (which may be empty). -/
inductive ModelCall where
  | notConfigured
  | fileMissing
  | raisedException
  | response (text : List Char)
  deriving DecidableEq, Repr

/-- `GeminiAnalyzer.analyze_label_image`, collapsed to its caller
visible contract: `some raw_text` exactly when `success` is `True`
(which requires a configured API, an existing file, no exception and
a truthy `response.text`); `none` is the `success = False` dict. -/
def analyze_label_image : ModelCall → Option (List Char)
  | .notConfigured => none
  | .fileMissing => none
  | .raisedException => none
  | .response t => if t.isEmpty then none else some t

/-- The model name stored with every analysis record. -/
def modelName : List Char := ("gemini-1.5-flash").toList

/-- `app.py analyze_image` from the point where the file was stored:
insert the image row, run the model call, and on success persist the
analysis (raw text plus serialized processed data, `dumps` standing
for `json.dumps`); on failure only report the error.  Returns the
resulting database state. -/
def analyze_image (st : DBState) (filename original_filename file_path : List Char)
    (file_size : Nat) (dumps : ExtractedSummary → List Char)
    (call : ModelCall) : DBState :=
  let r := save_uploaded_image st filename original_filename file_path file_size
  match analyze_label_image call with
  | some raw =>
      (save_analysis_result r.2 r.1 raw (dumps (process_response raw)) modelName).2
  | none => r.2

/-- The operations that can touch the `uploaded_images` and
`analysis_results` tables. -/
inductive DBOp where
  | saveImage (filename original_filename file_path : List Char) (file_size : Nat)
  | saveAnalysis (image_id : Nat) (analysis_text analysis_json model_used : List Char)
  deriving DecidableEq, Repr

/-- Apply one operation to the database state. -/
def applyOp (st : DBState) : DBOp → DBState
  | .saveImage fn ofn fp sz => (save_uploaded_image st fn ofn fp sz).2
  | .saveAnalysis i t j m => (save_analysis_result st i t j m).2

/-- Run a sequence of operations from freshly created tables. -/
def runOps (ops : List DBOp) : DBState :=
  ops.foldl applyOp initialDB

/-- Every image row's status is `'pending'` or `'completed'`. -/
def statusInv (st : DBState) : Prop :=
  ∀ r ∈ st.images,
    r.analysis_status = ("pending").toList ∨ r.analysis_status = ("completed").toList

end LabelDecoder

namespace LabelDecoder

/-! ### Helper lemmas -/

/-- The scan collector agrees with filter-then-strip. -/
theorem collectSummaryLines_eq (ls : List (List Char)) :
    collectSummaryLines ls = (ls.filter summaryKeeps).map pyStrip := by
  induction ls with
  | nil => rfl
  | cons l ls ih =>
    by_cases h : summaryKeeps l = true
    · simp [collectSummaryLines, List.filter_cons, h, ih]
    · simp [collectSummaryLines, List.filter_cons, h, ih]

/-- The warning scan collector agrees with `filterMap`. -/
theorem collectWarnings_eq (ls : List (List Char)) :
    collectWarnings ls = ls.filterMap warningItem := by
  induction ls with
  | nil => rfl
  | cons l ls ih =>
    cases h : warningItem l with
    | none => simp [collectWarnings, h, ih, List.filterMap_cons]
    | some w => simp [collectWarnings, h, ih, List.filterMap_cons]

/-- The pattern loop returns the first captured integer in `[1,10]`
across the pattern list, each pattern searched on the full text. -/
theorem firstValidRating_eq (ps : List (List Char → Option Nat)) (text : List Char) :
    firstValidRating ps text =
      ((ps.map (fun p => p text)).filterMap
        (fun r => r.bind (fun n => if 1 ≤ n ∧ n ≤ 10 then some n else none))).head? := by
  induction ps with
  | nil => rfl
  | cons p ps ih =>
    cases h : p text with
    | none => simp [firstValidRating, h, ih, List.filterMap_cons]
    | some n =>
      by_cases hr : 1 ≤ n ∧ n ≤ 10
      · simp [firstValidRating, h, hr, List.filterMap_cons]
      · simp [firstValidRating, h, hr, ih, List.filterMap_cons]

end LabelDecoder

namespace LabelDecoder

/-! ### Claim theorems: the extractor -/

/-- Claim C1 as stated is false: on the text `"#\na\nb\nc"` the code
takes only `lines[:3]` and produces `"a b..."`, while collecting the
first 3 qualifying lines anywhere in the text would produce
`"a b c..."`. -/
theorem C1_counterexample :
    extract_summary (("#\na\nb\nc").toList) = ("a b...").toList ∧
    claimed_extract_summary (("#\na\nb\nc").toList) = ("a b c...").toList ∧
    extract_summary (("#\na\nb\nc").toList) ≠
      claimed_extract_summary (("#\na\nb\nc").toList) := by
  exact ⟨by decide, by decide, by decide⟩

/-- Claim C1, amended: the scan examines only the first 3 lines of
the text and keeps those that are non-blank after trimming and do not
begin with a heading marker; the kept trimmed lines are joined with
single spaces, truncated to 200 characters with an ellipsis marker
appended when at least one line was kept, and `"Analysis completed"`
is returned exactly when no line was kept. -/
theorem C1_amended (text : List Char) :
    extract_summary text =
      (let collected := collectSummaryLines ((splitOnChar '\n' text).take 3)
       if collected.isEmpty then ("Analysis completed").toList
       else (joinSpace collected).take 200 ++ ("...").toList) := by
  simp only [extract_summary, collectSummaryLines_eq]

/-- Claim C1 amended, witnessed at a concrete text. -/
theorem C1_amended_witness :
    extract_summary (("#\na\nb\nc").toList) =
      (let collected := collectSummaryLines ((splitOnChar '\n' (("#\na\nb\nc").toList)).take 3)
       if collected.isEmpty then ("Analysis completed").toList
       else (joinSpace collected).take 200 ++ ("...").toList) :=
  C1_amended (("#\na\nb\nc").toList)

/-- Claim C2: the four searches are tried in their fixed order, each
on the full text, and the result is the first captured integer lying
in `[1, 10]`; `"Health Rating: 9/10"` yields 9 and `"Rating: 15"`
yields no rating. -/
theorem C2_health_rating :
    (∀ text, extract_health_rating text =
      ((ratingPatterns.map (fun p => p text)).filterMap
        (fun r => r.bind (fun n => if 1 ≤ n ∧ n ≤ 10 then some n else none))).head?) ∧
    extract_health_rating (("Health Rating: 9/10").toList) = some 9 ∧
    extract_health_rating (("Rating: 15").toList) = none :=
  ⟨fun text => firstValidRating_eq ratingPatterns text, by decide, by decide⟩

/-- Claim C3 as stated is false: on `"Ingredients: a,,b"` the code
keeps the trimmed-empty middle piece, returning `["a", "", "b"]`,
while the claim's rule (drop trimmed-empty pieces) would return
`["a", "b"]`. -/
theorem C3_counterexample :
    extract_ingredients (("Ingredients: a,,b").toList) = [['a'], [], ['b']] ∧
    claimed_extract_ingredients (("Ingredients: a,,b").toList) = [['a'], ['b']] ∧
    extract_ingredients (("Ingredients: a,,b").toList) ≠
      claimed_extract_ingredients (("Ingredients: a,,b").toList) := by
  exact ⟨by decide, by decide, by decide⟩

/-- Claim C3, amended: from the first line containing `"ingredient"`
(case-insensitively) and a colon, the text after the first colon is
split on commas and the first 5 pieces are returned, each trimmed —
pieces that are empty after trimming are kept and count toward the 5;
the empty list is returned when no qualifying line exists. -/
theorem C3_amended :
    (∀ text, extract_ingredients text =
      (match (splitOnChar '\n' text).find? ingredientLine with
       | none => []
       | some line =>
         match afterChar ':' line with
         | none => []
         | some rest => ((splitOnChar ',' (pyStrip rest)).take 5).map pyStrip)) ∧
    extract_ingredients
        (("Main Ingredients: Water, Sugar, Salt, Citric Acid, Vanilla, Extra").toList) =
      [("Water").toList, ("Sugar").toList, ("Salt").toList,
       ("Citric Acid").toList, ("Vanilla").toList] := by
  constructor
  · intro text
    simp only [extract_ingredients]
    cases h1 : (splitOnChar '\n' text).find? ingredientLine with
    | none => rfl
    | some line =>
      cases h2 : afterChar ':' line with
      | none => simp only [h2]
      | some rest => simp only [h2, List.map_take]
  · decide

/-- Claim C4 as stated is false: on the exact text
`"Health Rating: 8/10\nMain Ingredients: Sugar, Salt\nWarning: contains soy"`
all three lines are non-blank non-heading lines, so the summary is
their joined truncation, not the fallback `"Analysis completed"`. -/
theorem C4_counterexample :
    (process_response (("Health Rating: 8/10\nMain Ingredients: Sugar, Salt\nWarning: contains soy").toList)).summary ≠
      ("Analysis completed").toList := by
  decide

/-- Claim C4, amended: the extractor on that exact text yields health
rating 8, ingredients `["Sugar", "Salt"]`, warnings
`["contains soy"]`, and as summary the three joined lines followed by
the ellipsis marker. -/
theorem C4_amended :
    process_response (("Health Rating: 8/10\nMain Ingredients: Sugar, Salt\nWarning: contains soy").toList) =
      { summary := ("Health Rating: 8/10 Main Ingredients: Sugar, Salt Warning: contains soy...").toList
        health_rating := some 8
        key_ingredients := [("Sugar").toList, ("Salt").toList]
        warnings := [("contains soy").toList] } := by
  decide

/-- Claim C5 as stated is false in its final consequence: the text
`"Warning:\nWarning:\nWarning:\nWarning:"` has four qualifying lines,
yet every after-colon text is empty, so every line is skipped and the
result is `[]`, not a list of exactly 3 warnings. -/
theorem C5_counterexample :
    ((splitOnChar '\n' (("Warning:\nWarning:\nWarning:\nWarning:").toList)).countP warningLine) = 4 ∧
    extract_warnings (("Warning:\nWarning:\nWarning:\nWarning:").toList) = [] := by
  exact ⟨by decide, by decide⟩

/-- Claim C5, amended: every line is scanned with no early stop; a
qualifying line contributes the trimmed after-colon text when it has
a colon (skipped when that text is empty) and the trimmed whole line
otherwise; the items are collected in scan order and at most the
first 3 are returned — so four qualifying lines each contributing an
item yield exactly 3 warnings in first-seen order. -/
theorem C5_amended :
    (∀ text, extract_warnings text =
      (collectWarnings (splitOnChar '\n' text)).take 3) ∧
    extract_warnings
        (("Allergen Warnings: Contains nuts\nCaution: keep away from children\nAvoid sunlight\nConcern: high sodium").toList) =
      [("Contains nuts").toList, ("keep away from children").toList,
       ("Avoid sunlight").toList] := by
  constructor
  · intro text
    simp only [extract_warnings, collectWarnings_eq]
  · decide

/-- Claim C6: the extracted summary never exceeds 203 characters
(200 characters of content plus the 3-character ellipsis marker). -/
theorem C6_summary_length (text : List Char) : (extract_summary text).length ≤ 203 := by
  simp only [extract_summary]
  split
  · decide
  · rw [List.length_append, List.length_take]
    have h1 : min 200 (joinSpace (((splitOnChar '\n' text).take 3).filter summaryKeeps |>.map pyStrip)).length ≤ 200 :=
      Nat.min_le_left _ _
    have h2 : (("...").toList).length = 3 := rfl
    omega

/-- Claim C6, witnessed at a concrete text. -/
theorem C6_summary_length_witness :
    (extract_summary (("#\na\nb\nc").toList)).length ≤ 203 :=
  C6_summary_length (("#\na\nb\nc").toList)

/-- Claim C7: the extractor is a total function producing a record of
the four extracted fields for every input, and misses are represented
as an absent optional rating and empty sequences, as on the empty
input. -/
theorem C7_extractor_total :
    (∀ text, process_response text =
      { summary := extract_summary text
        health_rating := extract_health_rating text
        key_ingredients := extract_ingredients text
        warnings := extract_warnings text }) ∧
    process_response [] =
      { summary := ("Analysis completed").toList
        health_rating := none
        key_ingredients := []
        warnings := [] } :=
  ⟨fun _ => rfl, by decide⟩

/-- Claim C9: the extracted summary depends only on the first three
lines of the text. -/
theorem C9_summary_first_three (t1 t2 : List Char)
    (h : (splitOnChar '\n' t1).take 3 = (splitOnChar '\n' t2).take 3) :
    extract_summary t1 = extract_summary t2 := by
  simp only [extract_summary, h]

/-- Claim C9, witnessed on two texts sharing their first three lines
but differing beyond them. -/
theorem C9_summary_first_three_witness :
    (splitOnChar '\n' (("a\nb\nc\nd").toList)).take 3 =
      (splitOnChar '\n' (("a\nb\nc\nx\ny").toList)).take 3 ∧
    extract_summary (("a\nb\nc\nd").toList) =
      extract_summary (("a\nb\nc\nx\ny").toList) :=
  ⟨by decide, C9_summary_first_three _ _ (by decide)⟩

end LabelDecoder

namespace LabelDecoder

/-! ### Claim theorems: record store and orchestration -/

/-- `markCompleted` never changes the primary key. -/
theorem markCompleted_id (i : Nat) (r : ImageRow) : (markCompleted i r).id = r.id := by
  unfold markCompleted
  split <;> rfl

/-- Looking up a freshly appended row: every earlier row has a
different id, so `find?` returns the new row. -/
theorem find?_fresh_append (l : List ImageRow) (i : Nat) (r0 : ImageRow)
    (h : ∀ r ∈ l, r.id ≠ i) (h0 : r0.id = i) :
    (l ++ [r0]).find? (fun r => r.id = i) = some r0 := by
  induction l with
  | nil => simp [h0]
  | cons a l ih =>
    have ha : a.id ≠ i := h a (List.mem_cons_self a l)
    simp only [List.cons_append]
    rw [List.find?_cons_of_neg]
    · exact ih (fun r hr => h r (List.mem_cons_of_mem a hr))
    · simp [ha]

/-- Claim C8: with the image row freshly inserted, a failed model
call (not configured, missing file, exception, or empty response
text) leaves the database exactly as after the upload — no analysis
record, the image still `'pending'` — while a successful non-empty
response appends exactly one analysis record for that image and marks
it `'completed'`. -/
theorem C8_no_partial_persist (st : DBState) (fn ofn fp : List Char) (sz : Nat)
    (dumps : ExtractedSummary → List Char) (call : ModelCall)
    (hfresh : ∀ r ∈ st.images, r.id < st.nextImageId) :
    (analyze_label_image call = none →
      analyze_image st fn ofn fp sz dumps call = (save_uploaded_image st fn ofn fp sz).2 ∧
      (analyze_image st fn ofn fp sz dumps call).analyses = st.analyses ∧
      imageStatus (analyze_image st fn ofn fp sz dumps call)
        (save_uploaded_image st fn ofn fp sz).1 = some (("pending").toList)) ∧
    (∀ raw, analyze_label_image call = some raw →
      (analyze_image st fn ofn fp sz dumps call).analyses =
        st.analyses ++ [⟨st.nextAnalysisId, (save_uploaded_image st fn ofn fp sz).1, raw,
          dumps (process_response raw), modelName⟩] ∧
      imageStatus (analyze_image st fn ofn fp sz dumps call)
        (save_uploaded_image st fn ofn fp sz).1 = some (("completed").toList)) := by
  have hne : ∀ r ∈ st.images, r.id ≠ st.nextImageId := fun r hr => Nat.ne_of_lt (hfresh r hr)
  constructor
  · intro hf
    refine ⟨by simp [analyze_image, hf], by simp [analyze_image, hf, save_uploaded_image], ?_⟩
    simp only [analyze_image, hf, imageStatus, save_uploaded_image]
    rw [find?_fresh_append st.images st.nextImageId _ hne rfl]
    rfl
  · intro raw hs
    constructor
    · simp [analyze_image, hs, save_uploaded_image, save_analysis_result]
    · simp only [analyze_image, hs, imageStatus, save_uploaded_image, save_analysis_result,
        List.map_append, List.map_cons, List.map_nil]
      rw [find?_fresh_append (st.images.map (markCompleted st.nextImageId)) st.nextImageId
            (markCompleted st.nextImageId
              ⟨st.nextImageId, fn, ofn, fp, sz, ("pending").toList⟩)
            ?_ ?_]
      · simp [markCompleted]
      · intro r hr
        rcases List.mem_map.mp hr with ⟨x, hx, hmap⟩
        rw [← hmap, markCompleted_id]
        exact hne x hx
      · rw [markCompleted_id]

/-- Claim C8, witnessed at concrete inputs: from fresh tables, an
empty-text response persists nothing and leaves the image pending. -/
theorem C8_no_partial_persist_witness :
    (∀ r ∈ initialDB.images, r.id < initialDB.nextImageId) ∧
    analyze_label_image (ModelCall.response []) = none ∧
    (analyze_image initialDB [] [] [] 0 (fun _ => []) (ModelCall.response [])).analyses =
      initialDB.analyses ∧
    imageStatus (analyze_image initialDB [] [] [] 0 (fun _ => []) (ModelCall.response []))
      (save_uploaded_image initialDB [] [] [] 0).1 = some (("pending").toList) := by
  have hfresh : ∀ r ∈ initialDB.images, r.id < initialDB.nextImageId := by
    intro r hr
    exact absurd hr (List.not_mem_nil r)
  have h := C8_no_partial_persist initialDB [] [] [] 0 (fun _ => [])
    (ModelCall.response []) hfresh
  exact ⟨hfresh, rfl, (h.1 rfl).2.1, (h.1 rfl).2.2⟩

/-- Each database operation preserves the status invariant. -/
theorem applyOp_statusInv (st : DBState) (op : DBOp) (h : statusInv st) :
    statusInv (applyOp st op) := by
  cases op with
  | saveImage fn ofn fp sz =>
    intro r hr
    simp only [applyOp, save_uploaded_image] at hr
    rcases List.mem_append.mp hr with h1 | h1
    · exact h r h1
    · rw [List.mem_singleton.mp h1]
      left
      rfl
  | saveAnalysis i t j m =>
    intro r hr
    simp only [applyOp, save_analysis_result] at hr
    rcases List.mem_map.mp hr with ⟨x, hx, hmap⟩
    rw [← hmap]
    unfold markCompleted
    split
    · right
      rfl
    · exact h x hx

/-- A list of rows whose statuses are all `'pending'` or
`'completed'` is counted exactly once by the two status counters. -/
theorem length_countP_status (l : List ImageRow)
    (h : ∀ r ∈ l, r.analysis_status = ("pending").toList ∨
      r.analysis_status = ("completed").toList) :
    l.length = l.countP (fun r => r.analysis_status = ("completed").toList)
      + l.countP (fun r => r.analysis_status = ("pending").toList) := by
  induction l with
  | nil => rfl
  | cons a l ih =>
    have hl := ih (fun r hr => h r (List.mem_cons_of_mem a hr))
    rcases h a (List.mem_cons_self a l) with hp | hc
    · simp only [List.length_cons, List.countP_cons, hl, hp, decide_eq_true_eq]
      rw [if_neg (by decide : ¬ (("pending").toList = ("completed").toList))]
      simp only [if_true]
      omega
    · simp only [List.length_cons, List.countP_cons, hl, hc, decide_eq_true_eq]
      rw [if_neg (by decide : ¬ (("completed").toList = ("pending").toList))]
      simp only [if_true]
      omega

/-- Claim C10: in every database state reachable from fresh tables by
any sequence of `save_uploaded_image` and `save_analysis_result`
operations, every image row's status is `'pending'` or
`'completed'`, and the statistics satisfy
total = completed + pending. -/
theorem C10_status_partition (ops : List DBOp) :
    statusInv (runOps ops) ∧
    (get_upload_statistics (runOps ops)).1 =
      (get_upload_statistics (runOps ops)).2.1 +
        (get_upload_statistics (runOps ops)).2.2 := by
  have key : ∀ (l : List DBOp) (st : DBState),
      statusInv st → statusInv (List.foldl applyOp st l) := by
    intro l
    induction l with
    | nil => intro st h; exact h
    | cons a l ih => intro st h; exact ih _ (applyOp_statusInv st a h)
  have hinv : statusInv (runOps ops) :=
    key ops initialDB (fun r hr => absurd hr (List.not_mem_nil r))
  refine ⟨hinv, ?_⟩
  simp only [get_upload_statistics]
  exact length_countP_status _ hinv

end LabelDecoder
